import Mathlib

/-!
Shallow embedding of the `redigo_lock` distributed-lock library (Go) and
verification of its specification claims.

The embedding translates the source of `lock.go`, `options.go` and the
RedLock file into pure Lean functions.  Real time (ticker periods, wall
clocks) and the store client's responses are modelled as explicit inputs:
a blocking retry loop consumes a schedule of tick events, and every store
round-trip is either computed against an explicit in-memory store or given
as an `Except` response (to model transport failures).
-/

deriving instance DecidableEq for Except

namespace RedigoLock

/-- Go `error` values as this library produces them: either a sentinel
created by `errors.New`, or an error created by `fmt.Errorf` with a `%w`
verb wrapping an inner error.  Message strings are kept verbatim (format
verbs left unexpanded where the interpolated data does not matter). -/
inductive GoErr where
  | sentinel (msg : String)
  | wrapped (msg : String) (inner : GoErr)
deriving DecidableEq

/-- Model of `errors.Is`: target equals the error or appears in its `%w` wrap chain. -/
def errorsIs : GoErr → GoErr → Bool
  | .sentinel s, target => decide (GoErr.sentinel s = target)
  | .wrapped m inner, target =>
    decide (GoErr.wrapped m inner = target) || errorsIs inner target

/-- Sentinel `ErrLockAcquiredByOthers = errors.New(...)` (lock.go). -/
def ErrLockAcquiredByOthers : GoErr := .sentinel "This lock is acquired by others"

/-- Predicate `IsRetryableErr` (lock.go): `errors.Is(err, ErrLockAcquiredByOthers)`. -/
def IsRetryableErr (e : GoErr) : Bool := errorsIs e ErrLockAcquiredByOthers

/-- Constant `DefaultLockExpireSeconds = 30` (options.go). -/
def DefaultLockExpireSeconds : Int := 30

/-- Struct `LockOptions` (options.go); Go zero values as defaults. -/
structure LockOptions where
  isBlock : Bool := false
  blockWaitingSeconds : Int := 0
  expireSeconds : Int := 0
  watchDogMode : Bool := false
deriving DecidableEq

/-- The exported `LockOption` constructors (options.go). -/
inductive LockOption where
  | withBlock
  | withBlockWaitingSeconds (waitingSeconds : Int)
  | withExpireSeconds (expireSeconds : Int)
deriving DecidableEq

/-- Effect of one `LockOption` closure on a `LockOptions` value. -/
def applyLockOption (o : LockOptions) : LockOption → LockOptions
  | .withBlock => { o with isBlock := true }
  | .withBlockWaitingSeconds w => { o with blockWaitingSeconds := w }
  | .withExpireSeconds e => { o with expireSeconds := e }

/-- Function `setLockOptions` (options.go): default blocking ceiling 5 s; if no
positive expiry was set, use the 30 s default and enable watchdog mode. -/
def setLockOptions (o : LockOptions) : LockOptions :=
  let o := if o.isBlock = true ∧ o.blockWaitingSeconds ≤ 0 then
    { o with blockWaitingSeconds := 5 } else o
  if o.expireSeconds > 0 then o
  else { o with expireSeconds := DefaultLockExpireSeconds, watchDogMode := true }

/-- Options of a lock built by `NewRedisLock`: apply the option closures to
the zero value, then `setLockOptions`. -/
def mkLockOptions (opts : List LockOption) : LockOptions :=
  setLockOptions (opts.foldl applyLockOption {})

/-- Struct `RedisLock` (lock.go).  The holder token comes from the `utils` package
(process + goroutine identity); it is opaque here and passed as a parameter. -/
structure RedisLock where
  opts : LockOptions
  key : String
  token : String
deriving DecidableEq

/-- Method `getLockKey` (lock.go): `RedisLockKeyPrefix + r.key`. -/
def RedisLock.getLockKey (r : RedisLock) : String := "REDIS_LOCK_PREFIX_" ++ r.key

/-- Constructor `NewRedisLock` (lock.go). -/
def NewRedisLock (key token : String) (opts : List LockOption) : RedisLock :=
  { opts := mkLockOptions opts, key := key, token := token }

/-- The key/value store a single node holds, as an association list. -/
abbrev Store := List (String × String)

/-- Value currently stored at a key. -/
def storeGet (s : Store) (k : String) : Option String :=
  (s.find? fun p => p.1 == k).map Prod.snd

/-- Delete a key. -/
def storeDel (s : Store) (k : String) : Store :=
  s.filter fun p => p.1 != k

/-- Set a key to a value. -/
def storeSet (s : Store) (k v : String) : Store := (k, v) :: storeDel s k

/-- Command `SET key value EX e NX` against a healthy store (redis.go `SetNEX`):
reply 1 and insertion when the key is absent, reply 0 and no mutation when
it already exists (with any value). -/
def setNEX (s : Store) (k v : String) : Store × Int :=
  if storeGet s k = none then (storeSet s k v, 1) else (s, 0)

/-- Modelled from the spec: the Lua script `LuaCheckAndDeleteDistributionLock`
referenced by `Unlock` (lock.go) — its body is not among the provided source
files.  Spec §6 *check-and-delete*: given `(key, token)`, if
`store[key] == token`, delete `key` and return 1; else return 0 (no mutation). -/
def luaCheckAndDelete (s : Store) (k token : String) : Store × Int :=
  if storeGet s k = some token then (storeDel s k, 1) else (s, 0)

/-- Post-processing of the `SetNEX` reply inside `tryLock` (lock.go):
a transport error is returned as is; reply ≠ 1 becomes an error wrapping
`ErrLockAcquiredByOthers`. -/
def tryLockReply (resp : Except GoErr Int) : Except GoErr Unit :=
  match resp with
  | .error e => .error e
  | .ok reply =>
    if reply = 1 then .ok ()
    else .error (.wrapped ("reply: " ++ toString reply ++ ", err: %w") ErrLockAcquiredByOthers)

/-- Method `tryLock` (lock.go) against a healthy store. -/
def tryLock (r : RedisLock) (s : Store) : Store × Except GoErr Unit :=
  let p := setNEX s r.getLockKey r.token
  (p.1, tryLockReply (.ok p.2))

/-- Result of `ctx.Err()` once a context is done. -/
def ctxCanceledErr : GoErr := .sentinel "context canceled"

/-- Error returned by the blocking loop when the caller's context is done. -/
def ctxTimeoutWrapErr : GoErr :=
  .wrapped "ERROR: Lock failed, ctx timeout, err: %w" ctxCanceledErr

/-- Error returned by the blocking loop when the wait ceiling elapses:
`fmt.Errorf(..., ErrLockAcquiredByOthers)` — it wraps the sentinel. -/
def blockWaitingTimeoutErr : GoErr :=
  .wrapped "ERROR: Block waiting time out, err: %w" ErrLockAcquiredByOthers

/-- Error built by `Unlock` when the script reports code ≠ 1. -/
def NotOwnerUnlockErr : GoErr := .sentinel "ERROR: Can not unlock without ownership of lock"

/-- One 50 ms ticker iteration of `tryGetBlockingLock`: which `select`
branch fired on that tick, and — when the default branch ran — the client's
`SetNEX` response for the re-attempt. -/
inductive TickEvent where
  | ctxDone
  | timedOut
  | attempt (resp : Except GoErr Int)
deriving DecidableEq

/-- Method `tryGetBlockingLock` (lock.go) over a tick schedule.  `none` means the
loop had not yet terminated when the schedule ran out. -/
def tryGetBlockingLock : List TickEvent → Option (Except GoErr Unit)
  | [] => none
  | .ctxDone :: _ => some (.error ctxTimeoutWrapErr)
  | .timedOut :: _ => some (.error blockWaitingTimeoutErr)
  | .attempt resp :: rest =>
    match tryLockReply resp with
    | .ok () => some (.ok ())
    | .error e => if IsRetryableErr e then tryGetBlockingLock rest else some (.error e)

/-- Method `RedisLock.Lock` (lock.go), with the first attempt's client response and
the blocking loop's tick schedule as inputs.  Second component: whether the
deferred `watchDog` call arms the renewal task (it does so exactly when the
final error is nil and `watchDogMode` is set).  Store effects of the loop's
re-attempts live inside the tick inputs. -/
def lockFrom (r : RedisLock) (resp : Except GoErr Int) (ticks : List TickEvent) :
    Option (Except GoErr Unit) × Bool :=
  match tryLockReply resp with
  | .ok () => (some (.ok ()), r.opts.watchDogMode)
  | .error e =>
    if r.opts.isBlock = false then (some (.error e), false)
    else if IsRetryableErr e = false then (some (.error e), false)
    else
      match tryGetBlockingLock ticks with
      | none => (none, false)
      | some (.ok ()) => (some (.ok ()), r.opts.watchDogMode)
      | some (.error e2) => (some (.error e2), false)

/-- Method `RedisLock.Lock` with the first attempt computed against a healthy store. -/
def lock (r : RedisLock) (s : Store) (ticks : List TickEvent) :
    Store × (Option (Except GoErr Unit) × Bool) :=
  let p := setNEX s r.getLockKey r.token
  (p.1, lockFrom r (.ok p.2) ticks)

/-- Observable calls made by `Unlock`, in order. -/
inductive UnlockEvent where
  | evalCheckAndDelete
  | stopDogCall
deriving DecidableEq

/-- Method `Unlock` (lock.go) given the client's `Eval` response and whether a
renewal task is armed (`stopDog ≠ nil`).  Second component: the ordered
trace of the store call and of the deferred `stopDog()` — the `defer` runs
when the function returns, on every path. -/
def unlockFrom (dogArmed : Bool) (resp : Except GoErr Int) :
    Except GoErr Unit × List UnlockEvent :=
  let result : Except GoErr Unit :=
    match resp with
    | .error e => .error e
    | .ok code => if code = 1 then .ok () else .error NotOwnerUnlockErr
  (result, [UnlockEvent.evalCheckAndDelete] ++ if dogArmed then [UnlockEvent.stopDogCall] else [])

/-- Method `Unlock` (lock.go) against a healthy store running the check-and-delete
script. -/
def unlock (r : RedisLock) (s : Store) : Store × Except GoErr Unit :=
  let p := luaCheckAndDelete s r.getLockKey r.token
  (p.1, if p.2 = 1 then .ok () else .error NotOwnerUnlockErr)

/-- Constant `DefaultSingleLockTimeout = 50 * time.Millisecond`, in nanoseconds
(`time.Duration` is an int64 nanosecond count). -/
def DefaultSingleLockTimeout : Int := 50000000

/-- Struct `RedLockOptions` (options.go); durations in nanoseconds. -/
structure RedLockOptions where
  singleNodesTimeout : Int := 0
  expireDuration : Int := 0
deriving DecidableEq

/-- The exported `RedLockOption` constructors (options.go). -/
inductive RedLockOption where
  | withSingleNodesTimeout (t : Int)
  | withRedLockExpireDuration (d : Int)
deriving DecidableEq

/-- Effect of one `RedLockOption` closure. -/
def applyRedLockOption (o : RedLockOptions) : RedLockOption → RedLockOptions
  | .withSingleNodesTimeout t => { o with singleNodesTimeout := t }
  | .withRedLockExpireDuration d => { o with expireDuration := d }

/-- Function `setRedLockOption` (options.go). -/
def setRedLockOption (o : RedLockOptions) : RedLockOptions :=
  if o.singleNodesTimeout ≤ 0 then
    { o with singleNodesTimeout := DefaultSingleLockTimeout } else o

/-- Conversion `int64(d.Seconds())` on a `time.Duration`: nanoseconds to whole seconds,
truncated toward zero (float64 rounding at extreme magnitudes abstracted). -/
def durationSecondsInt64 (d : Int) : Int := Int.tdiv d 1000000000

/-- Struct `RedLock` (RedLock source file): node locks, success list, options.
The mutex is not represented (single-caller semantics). -/
structure RedLock where
  locks : List RedisLock
  successLocks : List RedisLock
  opts : RedLockOptions
deriving DecidableEq

/-- The `RedLockOptions` value `NewRedLock` works with: the option closures
applied to the zero value, then `setRedLockOption`. -/
def redLockEffOptions (opts : List RedLockOption) : RedLockOptions :=
  setRedLockOption (opts.foldl applyRedLockOption {})

/-- Constructor `NewRedLock`.  A node configuration is identified by its address; the
client it builds is irrelevant to lock semantics.  All node locks share one
token, as in the source where they are created on one goroutine. -/
def NewRedLock (key token : String) (confs : List String) (opts : List RedLockOption) :
    Except GoErr RedLock :=
  if confs.length < 3 then
    .error (.sentinel "ERROR: Can not use RedLock less than 3 nodes")
  else if (redLockEffOptions opts).expireDuration > 0 ∧
      (confs.length : Int) * (redLockEffOptions opts).singleNodesTimeout * 10
        > (redLockEffOptions opts).expireDuration then
    .error (.sentinel "ERROR: expire thresholds of single node is too long")
  else
    .ok { locks := confs.map fun _ =>
            NewRedisLock key token
              [.withExpireSeconds (durationSecondsInt64 (redLockEffOptions opts).expireDuration)],
          successLocks := [],
          opts := redLockEffOptions opts }

/-- Outcome of one node's `lock.Lock(ctx)` call inside `RedLock.Lock`:
the error (if any) and the measured elapsed time (nanoseconds). -/
structure NodeAttempt where
  err : Option GoErr
  cost : Int
deriving DecidableEq

/-- Condition `err == nil && cost <= r.singleNodesTimeout` (RedLock source). -/
def qualifies (timeout : Int) (a : NodeAttempt) : Bool :=
  decide (a.err = none) && decide (a.cost ≤ timeout)

/-- Method `RedLock.Lock`, with each node's attempt outcome as input.  Returns the
updated `RedLock`, the list of node locks whose `Unlock` was invoked for
rollback, and the result.  `>>> 1` mirrors the Go `len(r.locks)>>1`. -/
def RedLock.Lock (r : RedLock) (attempts : List NodeAttempt) :
    RedLock × List RedisLock × Except GoErr Unit :=
  let newSuccess :=
    ((r.locks.zip attempts).filter fun p => qualifies r.opts.singleNodesTimeout p.2).map Prod.fst
  let successLocks := r.successLocks ++ newSuccess
  if newSuccess.length < (r.locks.length >>> 1) + 1 then
    ({ r with successLocks := successLocks }, successLocks,
      .error (.sentinel "ERROR: RedLock lock failed"))
  else
    ({ r with successLocks := successLocks }, [], .ok ())

/-- Method `RedLock.UnLock`, with each success-list node's `Unlock` result as
input.  Returns the (unchanged) `RedLock`, the list of node locks whose
`Unlock` was invoked, and the returned error — the last non-nil one. -/
def RedLock.UnLock (r : RedLock) (results : List (Option GoErr)) :
    RedLock × List RedisLock × Option GoErr :=
  (r, r.successLocks, ((r.successLocks.zip results).filterMap fun p => p.2).getLast?)

/-- After deleting a key, a lookup of that key finds nothing. -/
theorem storeGet_storeDel_self (s : Store) (k : String) :
    storeGet (storeDel s k) k = none := by
  simp only [storeGet, storeDel, Option.map_eq_none', List.find?_eq_none, List.mem_filter]
  intro p hp
  simpa using hp.2

/-- C1: `Unlock` fails with the not-owner error exactly when the stored value
at the lock key differs from (or is absent for) this instance's token —
equivalently, exactly when the check-and-delete script returns a code other
than 1 — and then the store is left unchanged (a different holder's lock is
never deleted); it succeeds exactly when the stored value equals the token,
in which case the key is deleted. -/
theorem unlock_owner_check (r : RedisLock) (s : Store) :
    ((luaCheckAndDelete s r.getLockKey r.token).2 ≠ 1 ↔
      storeGet s r.getLockKey ≠ some r.token) ∧
    ((unlock r s).2 = .error NotOwnerUnlockErr ↔ storeGet s r.getLockKey ≠ some r.token) ∧
    (storeGet s r.getLockKey ≠ some r.token → (unlock r s).1 = s) ∧
    ((unlock r s).2 = .ok () ↔ storeGet s r.getLockKey = some r.token) ∧
    (storeGet s r.getLockKey = some r.token →
      (unlock r s).1 = storeDel s r.getLockKey ∧
      storeGet (unlock r s).1 r.getLockKey = none) := by
  by_cases h : storeGet s r.getLockKey = some r.token <;>
    simp [unlock, luaCheckAndDelete, h, storeGet_storeDel_self]

/-- Concrete instantiation of `unlock_owner_check`: a lock whose token is
`tokA` cannot delete a key held with value `tokB`, and the store survives. -/
theorem unlock_owner_check_witness :
    (unlock (NewRedisLock "k" "tokA" []) [("REDIS_LOCK_PREFIX_k", "tokB")]).2
        = .error NotOwnerUnlockErr ∧
    (unlock (NewRedisLock "k" "tokA" []) [("REDIS_LOCK_PREFIX_k", "tokB")]).1
        = [("REDIS_LOCK_PREFIX_k", "tokB")] := by
  have h := unlock_owner_check (NewRedisLock "k" "tokA" []) [("REDIS_LOCK_PREFIX_k", "tokB")]
  exact ⟨h.2.1.mpr (by decide), h.2.2.1 (by decide)⟩

/-- Whether a tick is one the loop silently retries past: an attempt that
failed with a retryable (acquired-by-others) error. -/
def retriedTick : TickEvent → Bool
  | .attempt resp =>
    match tryLockReply resp with
    | .error e => IsRetryableErr e
    | .ok () => false
  | _ => false

/-- Outcome the loop reports for the first tick it does not retry past. -/
def tickOutcome : TickEvent → Except GoErr Unit
  | .ctxDone => .error ctxTimeoutWrapErr
  | .timedOut => .error blockWaitingTimeoutErr
  | .attempt resp => tryLockReply resp

/-- The spec's description of the blocking retry loop: skip every attempt
that failed with the retryable acquired-by-others error; the first other
tick decides the outcome — success on a successful attempt, the
context-cancelled error on cancellation, the blocking-timeout error on the
ceiling, a non-retryable attempt error propagated as is. -/
def blockingLoopSpec (ticks : List TickEvent) : Option (Except GoErr Unit) :=
  match ticks.dropWhile retriedTick with
  | [] => none
  | t :: _ => some (tickOutcome t)

/-- C4: the blocking retry loop terminates with exactly one of four
outcomes, determined by the first tick that is not a retryable
acquired-by-others failure: success, blocking-timeout, context-cancelled,
or immediate propagation of the first non-retryable attempt error; no other
error kind is ever retried. -/
theorem tryGetBlockingLock_spec (ticks : List TickEvent) :
    tryGetBlockingLock ticks = blockingLoopSpec ticks := by
  induction ticks with
  | nil => rfl
  | cons t rest ih =>
    cases t with
    | ctxDone => rfl
    | timedOut => rfl
    | attempt resp =>
      cases hres : tryLockReply resp with
      | ok u =>
        cases u
        simp [tryGetBlockingLock, blockingLoopSpec, List.dropWhile, retriedTick, tickOutcome, hres]
      | error e =>
        by_cases hre : IsRetryableErr e = true <;>
          simp [tryGetBlockingLock, blockingLoopSpec, List.dropWhile, retriedTick,
            tickOutcome, hres, hre, ih]

/-- C8 counterexample: with a renewal task armed, the trace of `Unlock` is
`[evalCheckAndDelete, stopDogCall]` — the deferred stop runs after the
compare-and-delete store call, so the stop does not happen before it. -/
theorem unlock_stop_order_counterexample :
    ¬ ((unlockFrom true (.ok 1)).2.indexOf UnlockEvent.stopDogCall
        < (unlockFrom true (.ok 1)).2.indexOf UnlockEvent.evalCheckAndDelete) := by
  decide

/-- C8 amended: `Unlock` stops an armed renewal task unconditionally — on
every return path, including a transport error from the store call and a
not-owner failure — but the stop is deferred: it happens after the atomic
compare-and-delete store call, never before; with no armed task there is no
stop call. -/
theorem unlock_stops_dog_every_path (resp : Except GoErr Int) :
    (unlockFrom true resp).2 = [UnlockEvent.evalCheckAndDelete, UnlockEvent.stopDogCall] ∧
    (unlockFrom false resp).2 = [UnlockEvent.evalCheckAndDelete] := by
  cases resp <;> simp [unlockFrom]

/-- C10: the blocking-timeout error wraps the acquired-by-others sentinel,
so both `errors.Is(err, ErrLockAcquiredByOthers)` and `IsRetryableErr(err)`
hold for it, exactly as they hold for the plain contention error — a caller
testing the sentinel cannot tell the two (distinct) errors apart. -/
theorem blockTimeout_wraps_sentinel :
    errorsIs blockWaitingTimeoutErr ErrLockAcquiredByOthers = true ∧
    IsRetryableErr blockWaitingTimeoutErr = true ∧
    IsRetryableErr (.wrapped "reply: 0, err: %w" ErrLockAcquiredByOthers) = true ∧
    errorsIs (.wrapped "reply: 0, err: %w" ErrLockAcquiredByOthers) ErrLockAcquiredByOthers
      = true ∧
    blockWaitingTimeoutErr ≠ .wrapped "reply: 0, err: %w" ErrLockAcquiredByOthers := by
  decide

/-- No `LockOption` closure touches the watchdog flag. -/
theorem foldl_applyLockOption_watchDogMode (opts : List LockOption) (o : LockOptions) :
    (opts.foldl applyLockOption o).watchDogMode = o.watchDogMode := by
  induction opts generalizing o with
  | nil => rfl
  | cons a t ih => cases a <;> simp [List.foldl_cons, applyLockOption, ih]

/-- Without a `withExpireSeconds` option the expiry field keeps its value. -/
theorem foldl_applyLockOption_expire (opts : List LockOption) (o : LockOptions)
    (h : ∀ e : Int, LockOption.withExpireSeconds e ∉ opts) :
    (opts.foldl applyLockOption o).expireSeconds = o.expireSeconds := by
  induction opts generalizing o with
  | nil => rfl
  | cons a t ih =>
    have ht : ∀ e : Int, LockOption.withExpireSeconds e ∉ t := fun e he =>
      h e (List.mem_cons_of_mem _ he)
    cases a with
    | withBlock => rw [List.foldl_cons]; exact ih _ ht
    | withBlockWaitingSeconds w => rw [List.foldl_cons]; exact ih _ ht
    | withExpireSeconds e => exact absurd (List.mem_cons_self _ _) (h e)

/-- Watchdog mode after construction holds exactly when the options left the
expiry nonpositive. -/
theorem mkLockOptions_watchDogMode (opts : List LockOption) :
    (mkLockOptions opts).watchDogMode = true ↔
      (opts.foldl applyLockOption {}).expireSeconds ≤ 0 := by
  have hw := foldl_applyLockOption_watchDogMode opts ({} : LockOptions)
  simp only [mkLockOptions, setLockOptions]
  split_ifs with h1 h2 h2 <;> simp_all

/-- With the watchdog flag off, no path of `Lock` arms the renewal task. -/
theorem lockFrom_dog_off (r : RedisLock) (resp : Except GoErr Int) (ticks : List TickEvent)
    (h : r.opts.watchDogMode = false) : (lockFrom r resp ticks).2 = false := by
  unfold lockFrom
  cases tryLockReply resp with
  | ok u => cases u; simp [h]
  | error e =>
    by_cases hb : r.opts.isBlock = false
    · simp [hb]
    · by_cases hre : IsRetryableErr e = false
      · simp [hb, hre]
      · cases htr : tryGetBlockingLock ticks with
        | none => simp [hb, hre, htr]
        | some res =>
          cases res with
          | ok u => cases u; simp [hb, hre, htr, h]
          | error e2 => simp [hb, hre, htr]

/-- C5: after option defaulting, watchdog mode is on iff the caller did not
supply a positive explicit expiry (the option-built expiry is ≤ 0); in
particular it is on whenever no `withExpireSeconds` option occurs at all;
and with a positive explicit expiry, no successful `Lock` ever arms the
renewal task. -/
theorem watchdog_iff_no_explicit_expiry (opts : List LockOption) :
    ((mkLockOptions opts).watchDogMode = true ↔
      (opts.foldl applyLockOption {}).expireSeconds ≤ 0) ∧
    ((∀ e : Int, LockOption.withExpireSeconds e ∉ opts) →
      (mkLockOptions opts).watchDogMode = true) ∧
    (0 < (opts.foldl applyLockOption {}).expireSeconds →
      ∀ key token resp ticks, (lockFrom (NewRedisLock key token opts) resp ticks).2 = false) := by
  refine ⟨mkLockOptions_watchDogMode opts, ?_, ?_⟩
  · intro h
    refine (mkLockOptions_watchDogMode opts).mpr ?_
    rw [foldl_applyLockOption_expire opts _ h]
  · intro h key token resp ticks
    refine lockFrom_dog_off _ resp ticks ?_
    have hiff := mkLockOptions_watchDogMode opts
    have : ¬ (mkLockOptions opts).watchDogMode = true := by
      rw [hiff]; omega
    simpa [NewRedisLock] using Bool.eq_false_iff.mpr (by simpa [NewRedisLock] using this)

/-- Concrete instantiation of `watchdog_iff_no_explicit_expiry`: a 10 s
explicit expiry never arms the dog; an empty option list enables watchdog. -/
theorem watchdog_iff_no_explicit_expiry_witness :
    (lockFrom (NewRedisLock "k" "t" [.withExpireSeconds 10]) (.ok 1) []).2 = false ∧
    (mkLockOptions []).watchDogMode = true := by
  refine ⟨(watchdog_iff_no_explicit_expiry [.withExpireSeconds 10]).2.2 (by decide)
      "k" "t" (.ok 1) [], (watchdog_iff_no_explicit_expiry []).2.1 ?_⟩
  intro e he
  exact absurd he (List.not_mem_nil _)

/-- C6: with blocking mode off, `Lock` on a key already held (with any
value) returns the acquired-by-others error immediately — for every tick
schedule, the blocking loop is never consulted — and leaves the store
unchanged; a transport failure of the attempt is likewise returned
immediately as that error. -/
theorem lock_nonblocking_contention (r : RedisLock) (s : Store) (ticks : List TickEvent)
    (v : String) (hb : r.opts.isBlock = false) (hk : storeGet s r.getLockKey = some v) :
    (lock r s ticks).1 = s ∧
    (lock r s ticks).2
      = (some (.error (.wrapped "reply: 0, err: %w" ErrLockAcquiredByOthers)), false) ∧
    (∀ e : GoErr, lockFrom r (.error e) ticks = (some (.error e), false)) := by
  have hs : setNEX s r.getLockKey r.token = (s, 0) := by simp [setNEX, hk]
  have ht : tryLockReply (.ok 0)
      = .error (.wrapped "reply: 0, err: %w" ErrLockAcquiredByOthers) := by rfl
  refine ⟨by simp [lock, hs], ?_, ?_⟩
  · simp [lock, hs, lockFrom, ht, hb]
  · intro e
    simp [lockFrom, tryLockReply, hb]

/-- Concrete instantiation of `lock_nonblocking_contention`: contention on a
held key fails at once and mutates nothing. -/
theorem lock_nonblocking_contention_witness :
    (lock (NewRedisLock "k" "tokB" []) [("REDIS_LOCK_PREFIX_k", "tokA")] []).1
      = [("REDIS_LOCK_PREFIX_k", "tokA")] ∧
    (lock (NewRedisLock "k" "tokB" []) [("REDIS_LOCK_PREFIX_k", "tokA")] []).2
      = (some (.error (.wrapped "reply: 0, err: %w" ErrLockAcquiredByOthers)), false) := by
  have h := lock_nonblocking_contention (NewRedisLock "k" "tokB" [])
      [("REDIS_LOCK_PREFIX_k", "tokA")] [] "tokA" (by rfl) (by decide)
  exact ⟨h.1, h.2.1⟩

/-- Go's `len(r.locks)>>1` is `len(r.locks)/2`. -/
theorem locks_shiftRight_one (n : Nat) : n >>> 1 = n / 2 := rfl

/-- C2: `RedLock.Lock` counts a node toward the quorum iff its acquisition
returned success and its elapsed time did not exceed the per-node timeout
budget, appending exactly those nodes to the success list; when the count
is below `floor(n/2)+1` it releases every node in the (whole) success list
and reports the quorum error, and otherwise it reports success with the
list retained and no release. -/
theorem RedLock_Lock_quorum (r : RedLock) (attempts : List NodeAttempt)
    (h : attempts.length = r.locks.length) :
    (r.locks.zip attempts).length = r.locks.length ∧
    (∀ a : NodeAttempt, qualifies r.opts.singleNodesTimeout a = true ↔
      (a.err = none ∧ a.cost ≤ r.opts.singleNodesTimeout)) ∧
    (RedLock.Lock r attempts).1.successLocks
      = r.successLocks ++ ((r.locks.zip attempts).filter
          fun p => qualifies r.opts.singleNodesTimeout p.2).map Prod.fst ∧
    ((((r.locks.zip attempts).filter fun p => qualifies r.opts.singleNodesTimeout p.2).length
        < r.locks.length / 2 + 1) →
      (RedLock.Lock r attempts).2.1 = (RedLock.Lock r attempts).1.successLocks ∧
      (RedLock.Lock r attempts).2.2 = .error (.sentinel "ERROR: RedLock lock failed")) ∧
    ((r.locks.length / 2 + 1 ≤ ((r.locks.zip attempts).filter
          fun p => qualifies r.opts.singleNodesTimeout p.2).length) →
      (RedLock.Lock r attempts).2.1 = [] ∧ (RedLock.Lock r attempts).2.2 = .ok ()) := by
  refine ⟨?_, ?_, ?_, ?_, ?_⟩
  · rw [List.length_zip, h, Nat.min_self]
  · intro a; simp [qualifies]
  · simp only [RedLock.Lock]
    split <;> rfl
  · intro hlt
    have hc : ((((r.locks.zip attempts).filter
        fun p => qualifies r.opts.singleNodesTimeout p.2).map Prod.fst).length
        < r.locks.length >>> 1 + 1) := by
      rw [List.length_map, locks_shiftRight_one]; exact hlt
    constructor <;> (simp only [RedLock.Lock]; rw [if_pos hc])
  · intro hge
    have hc : ¬ ((((r.locks.zip attempts).filter
        fun p => qualifies r.opts.singleNodesTimeout p.2).map Prod.fst).length
        < r.locks.length >>> 1 + 1) := by
      rw [List.length_map, locks_shiftRight_one]; omega
    constructor <;> (simp only [RedLock.Lock]; rw [if_neg hc])

/-- Concrete instantiation of `RedLock_Lock_quorum`: three nodes, one
in-budget success (one too slow, one erroring) — quorum missed, the single
success rolled back. -/
theorem RedLock_Lock_quorum_witness :
    (RedLock.Lock
        ⟨[NewRedisLock "k" "t" [], NewRedisLock "k" "t" [], NewRedisLock "k" "t" []], [],
          ⟨50, 0⟩⟩
        [⟨none, 10⟩, ⟨none, 60⟩, ⟨some ctxCanceledErr, 5⟩]).2.2
      = .error (.sentinel "ERROR: RedLock lock failed") ∧
    (RedLock.Lock
        ⟨[NewRedisLock "k" "t" [], NewRedisLock "k" "t" [], NewRedisLock "k" "t" []], [],
          ⟨50, 0⟩⟩
        [⟨none, 10⟩, ⟨none, 60⟩, ⟨some ctxCanceledErr, 5⟩]).2.1
      = [NewRedisLock "k" "t" []] := by
  have h := RedLock_Lock_quorum
      ⟨[NewRedisLock "k" "t" [], NewRedisLock "k" "t" [], NewRedisLock "k" "t" []], [], ⟨50, 0⟩⟩
      [⟨none, 10⟩, ⟨none, 60⟩, ⟨some ctxCanceledErr, 5⟩] (by rfl)
  obtain ⟨hrel, herr⟩ := h.2.2.2.1 (by decide)
  refine ⟨herr, ?_⟩
  rw [hrel, h.2.2.1]
  rfl

/-- C9: the success list is append-only — `Lock` only ever appends to it
(also when it fails and rolls back), `UnLock` never clears it — so a later
`UnLock` on the same instance re-attempts a release of every stale entry,
including nodes already released by a failed `Lock`'s rollback. -/
theorem successLocks_append_only (r : RedLock) (attempts : List NodeAttempt)
    (results : List (Option GoErr)) :
    r.successLocks <+: (RedLock.Lock r attempts).1.successLocks ∧
    ((RedLock.Lock r attempts).2.2 ≠ .ok () →
      (RedLock.Lock r attempts).2.1 = (RedLock.Lock r attempts).1.successLocks) ∧
    (RedLock.UnLock r results).1.successLocks = r.successLocks ∧
    (RedLock.UnLock r results).2.1 = r.successLocks ∧
    (RedLock.UnLock (RedLock.Lock r attempts).1 results).2.1
      = (RedLock.Lock r attempts).1.successLocks := by
  refine ⟨?_, ?_, rfl, rfl, ?_⟩
  · simp only [RedLock.Lock]
    split <;> exact ⟨_, rfl⟩
  · intro hne
    by_cases hc : ((((r.locks.zip attempts).filter
        fun p => qualifies r.opts.singleNodesTimeout p.2).map Prod.fst).length
        < r.locks.length >>> 1 + 1)
    · simp only [RedLock.Lock]
      rw [if_pos hc]
    · exfalso
      apply hne
      simp only [RedLock.Lock]
      rw [if_neg hc]
  · simp only [RedLock.UnLock]

/-- Concrete instantiation of `successLocks_append_only`: a stale entry
survives a failed `Lock` (all three nodes err) and the following `UnLock`
re-attempts its release. -/
theorem successLocks_append_only_witness :
    (RedLock.Lock
        ⟨[NewRedisLock "q" "u" [], NewRedisLock "q" "u" [], NewRedisLock "q" "u" []],
          [NewRedisLock "q" "u" []], ⟨50, 0⟩⟩
        [⟨some ctxCanceledErr, 1⟩, ⟨some ctxCanceledErr, 1⟩, ⟨some ctxCanceledErr, 1⟩]).2.1
      = [NewRedisLock "q" "u" []] := by
  have h := successLocks_append_only
      ⟨[NewRedisLock "q" "u" [], NewRedisLock "q" "u" [], NewRedisLock "q" "u" []],
        [NewRedisLock "q" "u" []], ⟨50, 0⟩⟩
      [⟨some ctxCanceledErr, 1⟩, ⟨some ctxCanceledErr, 1⟩, ⟨some ctxCanceledErr, 1⟩] []
  rw [h.2.1 (by decide)]
  rfl

/-- Options of a lock built with a single `withExpireSeconds e` option. -/
theorem mkLockOptions_single_expire (e : Int) :
    mkLockOptions [.withExpireSeconds e]
      = if e > 0 then { expireSeconds := e }
        else { expireSeconds := DefaultLockExpireSeconds, watchDogMode := true } := by
  by_cases h : e > 0 <;>
    simp [mkLockOptions, setLockOptions, applyLockOption, List.foldl_cons, h]

/-- C3 counterexample: a RedLock built from 3 node configurations with NO
expiry-duration option succeeds, and every per-node lock has watchdog mode
ENABLED (with the default 30 s expiry) — contradicting the claim that the
per-node locks never have watchdog mode, including when no expiry option
was given. -/
theorem NewRedLock_watchdog_counterexample :
    (NewRedLock "k" "t" ["n1", "n2", "n3"] []).toOption.map
        (fun rl => rl.locks.map fun l => (l.opts.watchDogMode, l.opts.expireSeconds))
      = some [(true, 30), (true, 30), (true, 30)] := by rfl

/-- C3 amended: every per-node lock of a successfully constructed RedLock is
built with expiry `int64(expireDuration.Seconds())` and is non-blocking;
when that truncated value is positive the node lock keeps it as its expiry
and watchdog mode is disabled, but when it is ≤ 0 — notably whenever no
expiry-duration option was supplied — the node lock falls back to the 30 s
default expiry with watchdog mode enabled. -/
theorem NewRedLock_node_options (key token : String) (confs : List String)
    (opts : List RedLockOption) (rl : RedLock)
    (h : NewRedLock key token confs opts = .ok rl) :
    ∀ l ∈ rl.locks,
      l.opts.isBlock = false ∧
      (0 < durationSecondsInt64 rl.opts.expireDuration →
        l.opts.expireSeconds = durationSecondsInt64 rl.opts.expireDuration ∧
        l.opts.watchDogMode = false) ∧
      (durationSecondsInt64 rl.opts.expireDuration ≤ 0 →
        l.opts.expireSeconds = DefaultLockExpireSeconds ∧
        l.opts.watchDogMode = true) := by
  unfold NewRedLock at h
  split at h
  · exact absurd h (by simp)
  · split at h
    · exact absurd h (by simp)
    · injection h with h
      subst h
      intro l hl
      simp only [List.mem_map] at hl
      obtain ⟨c, hc, rfl⟩ := hl
      simp only [NewRedisLock, mkLockOptions_single_expire]
      by_cases hpos : 0 < durationSecondsInt64 (redLockEffOptions opts).expireDuration <;>
        simp [hpos]

/-- Concrete instantiation of `NewRedLock_node_options`: a 2 s group expiry
gives each per-node lock a 2 s expiry with the watchdog off. -/
theorem NewRedLock_node_options_witness :
    (NewRedisLock "k" "t" [.withExpireSeconds 2]).opts.watchDogMode = false ∧
    (NewRedisLock "k" "t" [.withExpireSeconds 2]).opts.expireSeconds = 2 := by
  have h := NewRedLock_node_options "k" "t" ["a", "b", "c"]
      [.withRedLockExpireDuration 2000000000]
      ⟨[NewRedisLock "k" "t" [.withExpireSeconds 2], NewRedisLock "k" "t" [.withExpireSeconds 2],
        NewRedisLock "k" "t" [.withExpireSeconds 2]], [], ⟨50000000, 2000000000⟩⟩ (by rfl)
  have hl := h (NewRedisLock "k" "t" [.withExpireSeconds 2]) (List.mem_cons_self _ _)
  exact ⟨(hl.2.1 (by decide)).2, (hl.2.1 (by decide)).1⟩

/-- C7 counterexample: 3 node configurations, an explicit 1 s expiry, and NO
per-node-timeout option.  The claim predicts success (only one of the two
was configured), but construction fails: the defaulted 50 ms per-node
timeout makes 3 × 50 ms × 10 = 1.5 s exceed the 1 s expiry. -/
theorem NewRedLock_validation_counterexample :
    (NewRedLock "k" "t" ["n1", "n2", "n3"] [.withRedLockExpireDuration 1000000000]).toOption
      = none := by rfl

/-- C7 amended: construction fails exactly when fewer than 3 node
configurations are supplied, or when an explicit (positive) expiry is
configured and `nodeCount × perNodeTimeout × 10` exceeds it — where the
per-node timeout is the configured one if positive, else the 50 ms default;
in every other case construction succeeds with one per-node lock per
configuration. -/
theorem NewRedLock_validation (key token : String) (confs : List String)
    (opts : List RedLockOption) :
    ((NewRedLock key token confs opts).toOption = none ↔
      (confs.length < 3 ∨
        (0 < (redLockEffOptions opts).expireDuration ∧
          (redLockEffOptions opts).expireDuration
            < (confs.length : Int) * (redLockEffOptions opts).singleNodesTimeout * 10))) ∧
    (∀ rl, NewRedLock key token confs opts = .ok rl → rl.locks.length = confs.length) := by
  constructor
  · unfold NewRedLock
    split_ifs with h1 h2
    · exact iff_of_true rfl (Or.inl h1)
    · exact iff_of_true rfl (Or.inr ⟨h2.1, h2.2⟩)
    · refine iff_of_false (by simp [Except.toOption]) ?_
      rintro (hlt | ⟨hed, hlt⟩)
      · exact h1 hlt
      · exact h2 ⟨hed, hlt⟩
  · intro rl h
    unfold NewRedLock at h
    split at h
    · exact absurd h (by simp)
    · split at h
      · exact absurd h (by simp)
      · injection h with h
        subst h
        simp

/-- Concrete instantiation of `NewRedLock_validation`: 2 node configurations
are rejected; 5 untimed nodes are accepted with one lock each. -/
theorem NewRedLock_validation_witness :
    (NewRedLock "k" "t" ["n1", "n2"] []).toOption = none ∧
    (NewRedLock "k" "t" ["n1", "n2", "n3", "n4", "n5"] []).toOption.map
        (fun rl => rl.locks.length) = some 5 := by
  exact ⟨(NewRedLock_validation "k" "t" ["n1", "n2"] []).1.mpr (Or.inl (by decide)), by rfl⟩

end RedigoLock
